import Mathlib

/-!
Verification of `macos_accent.py` (mtoohey31/macos-accent).

The Python module is shallowly embedded: each Python function becomes a Lean
definition of the same name.  External effects are made explicit:

* a call to `os.system cmd` is represented by the command string `cmd` that the
  function would pass to the shell;
* `subprocess.run` results are passed in as an exit code and a stdout string;
* a Python exception is an `Except PyErr` error value.

Floating-point arithmetic is modelled by exact rational arithmetic (`ℚ`); all
numeric literals in the program are short decimals (exactly representable as
rationals), and the comparisons the program performs are strict `<`
comparisons between sums of such values, so the rational model agrees with the
float semantics on everything proved here.  The palette's channel literals are
six-decimal-digit decimals; they are stored as their digit strings' integer
values in millionths (`0.874510` ↦ `874510`), and `chanQ` recovers the
rational value where arithmetic needs it.
-/

set_option maxRecDepth 100000

/-- Python exception classes raised by this program (messages elided). -/
inductive PyErr : Type where
  | valueError : PyErr
  | indexError : PyErr
  | keyError : PyErr
deriving DecidableEq, Repr

/-- Decidable equality of embedded results (core provides none for `Except`). -/
instance {ε α : Type} [DecidableEq ε] [DecidableEq α] : DecidableEq (Except ε α) := fun x y =>
  match x, y with
  | .ok a, .ok b =>
    if h : a = b then isTrue (by rw [h]) else isFalse (fun hh => h (Except.ok.inj hh))
  | .error e, .error f =>
    if h : e = f then isTrue (by rw [h]) else isFalse (fun hh => h (Except.error.inj hh))
  | .ok _, .error _ => isFalse (fun hh => Except.noConfusion hh)
  | .error _, .ok _ => isFalse (fun hh => Except.noConfusion hh)

/-! ### A model of the pieces of the Python runtime the program uses -/

/-- Characters stripped by Python `str.strip()` / ignored around `int()`
literals (Unicode whitespace, by code point). -/
def isPySpace (c : Char) : Bool :=
  let n := c.toNat
  (9 ≤ n && n ≤ 13) || (28 ≤ n && n ≤ 32) || n == 133 || n == 160 || n == 5760 ||
    (8192 ≤ n && n ≤ 8202) || n == 8232 || n == 8233 || n == 8239 || n == 8287 ||
    n == 12288

/-- Strip Python whitespace from both ends of a character list. -/
def pyStrip (l : List Char) : List Char :=
  ((l.dropWhile isPySpace).reverse.dropWhile isPySpace).reverse

/-- Value of an ASCII hexadecimal digit (Python `int(·, 16)` digit set;
non-ASCII Unicode digits are not modelled, the program never meets them). -/
def digitVal16? (c : Char) : Option Nat :=
  let n := c.toNat
  if 48 ≤ n && n ≤ 57 then some (n - 48)
  else if 97 ≤ n && n ≤ 102 then some (n - 87)
  else if 65 ≤ n && n ≤ 70 then some (n - 55)
  else none

/-- Value of an ASCII decimal digit (Python `int(·)`). -/
def digitVal10? (c : Char) : Option Nat :=
  let n := c.toNat
  if 48 ≤ n && n ≤ 57 then some (n - 48) else none

/-- Digits after the first one: Python allows a single `_` between digits. -/
def parseTail (dv : Char → Option Nat) (b : Nat) : List Char → Nat → Option Nat
  | [], acc => some acc
  | c :: rest, acc =>
    if c = '_' then
      match rest with
      | [] => none
      | c2 :: rest2 =>
        match dv c2 with
        | some d => parseTail dv b rest2 (acc * b + d)
        | none => none
    else
      match dv c with
      | some d => parseTail dv b rest (acc * b + d)
      | none => none

/-- An unsigned digit run (at least one digit, `_` allowed between digits). -/
def parseDigits (dv : Char → Option Nat) (b : Nat) (l : List Char) : Option Nat :=
  match l with
  | [] => none
  | c :: rest =>
    match dv c with
    | some d => parseTail dv b rest d
    | none => none

/-- Body of a base-16 literal: optional `0x`/`0X` prefix (a single `_` may
follow the prefix), then hex digits. -/
def parseHexBody (l : List Char) : Option Nat :=
  match l with
  | c0 :: c1 :: rest =>
    if c0 = '0' ∧ (c1 = 'x' ∨ c1 = 'X') then
      if rest.head? = some '_' then parseDigits digitVal16? 16 rest.tail
      else parseDigits digitVal16? 16 rest
    else parseDigits digitVal16? 16 l
  | _ => parseDigits digitVal16? 16 l

/-- Shared outer layer of Python `int(s, base)`: strip whitespace, optional
sign, then the base-specific body. `none` models a raised `ValueError`. -/
def pyIntOfList (body : List Char → Option Nat) (l : List Char) : Option Int :=
  let l := pyStrip l
  if l.head? = some '+' then (body l.tail).map Int.ofNat
  else if l.head? = some '-' then (body l.tail).map (fun n => -(n : Int))
  else (body l).map Int.ofNat

/-- Python `int(s, 16)`. -/
def pyIntStr16 (s : String) : Option Int := pyIntOfList parseHexBody s.data

/-- Python `int(s)` (base 10, no prefix allowed). -/
def pyIntStr10 (s : String) : Option Int := pyIntOfList (parseDigits digitVal10? 10) s.data

/-- Python string slice `s[a:b]` for `0 ≤ a ≤ b` (clamped at the end). -/
def pySlice (s : String) (a b : Nat) : String :=
  String.mk ((s.data.drop a).take (b - a))

/-- Python `str.split(s, ' ')`: split at every single space, keeping empty
pieces. -/
def pySplitSpace : List Char → List (List Char)
  | [] => [[]]
  | c :: rest =>
    match pySplitSpace rest with
    | [] => [[]]
    | g :: gs => if c = ' ' then [] :: g :: gs else (c :: g) :: gs

/-- Drop trailing `'0'` characters. -/
def stripTrailingZeros (l : List Char) : List Char :=
  (l.reverse.dropWhile (fun c => c == '0')).reverse

/-- Python `str(f)`, for a float holding a value of `n` millionths
(`0 ≤ n ≤ 2·10⁶`, the range this program prints).  All such values are
non-negative decimals with at most six fractional digits and at most one
integer digit, and for them CPython's shortest round-trip repr is the decimal
digits with trailing fractional zeros removed, keeping at least one fractional
digit (`str(1.0) = "1.0"`, `str(0.749020) = "0.74902"`). -/
def pyFloatStr (n6 : Nat) : String :=
  let ip : Nat := n6 / 1000000
  let fr : Nat := n6 % 1000000
  let digits := toString fr
  let padded := List.replicate (6 - digits.length) '0' ++ digits.data
  let stripped := stripTrailingZeros padded
  toString ip ++ "." ++ (if stripped.isEmpty then ("0") else String.mk stripped)

/-! ### The embedded program -/

/-- The table `ACCENT_DEFINITIONS`: key, name and rgb triple, in the source's insertion
order (the order Python dict iteration uses).  Each channel literal is stored
as its exact value in millionths (`0.874510` ↦ `874510`). -/
def ACCENT_DEFINITIONS : List (Int × String × Nat × Nat × Nat) :=
  [(-2, "Blue", 0, 874510, 1000000),
   (5, "Purple", 968627, 831373, 1000000),
   (6, "Pink", 1000000, 749020, 823529),
   (0, "Red", 1000000, 733333, 721569),
   (1, "Orange", 1000000, 874510, 701961),
   (2, "Yellow", 1000000, 937255, 690196),
   (3, "Green", 752941, 964706, 678431),
   (-1, "Graphite", 847059, 847059, 862745)]

/-- The rational value of a channel stored in millionths. -/
def chanQ (n : Nat) : ℚ := (n : ℚ) / 1000000

/-- The source expression `ACCENT_DEFINITIONS[i][1]` as the rational rgb triple the source's float
tuple denotes. -/
def entryRGB (e : Int × String × Nat × Nat × Nat) : ℚ × ℚ × ℚ :=
  (chanQ e.2.2.1, chanQ e.2.2.2.1, chanQ e.2.2.2.2)

/-- The key view `dict.keys(ACCENT_DEFINITIONS)` as a list. -/
def accentKeys : List Int := ACCENT_DEFINITIONS.map (fun e => e.1)

/-- The function `read_accent`, as a function of the `subprocess.run` result
(`returncode`, decoded `stdout`).  On a zero exit the output is fed to
`int(...)`, whose failure raises `ValueError`. -/
def read_accent (returncode : Int) (stdout : String) : Except PyErr Int :=
  if returncode = 0 then
    match pyIntStr10 stdout with
    | some n => .ok n
    | none => .error .valueError
  else .ok (-2)

/-- The function `set_accent`: the command string passed to `os.system`. -/
def set_accent (value : Int) : String :=
  if value ∈ accentKeys ∧ value ≠ -2 then
    "defaults write 'Apple Global Domain' AppleAccentColor '" ++ toString value ++ "'"
  else
    "defaults delete 'Apple Global Domain' AppleAccentColor"

/-- The function `read_highlight`, as a function of the `subprocess.run` result.  On a zero
exit: split stdout on single spaces, take token `[3]` (raising `IndexError`
when absent), drop its final character, and look the name up in
`ACCENT_DEFINITIONS` (the Python loop runs over the key set; names are unique,
so scanning in insertion order is equivalent). -/
def read_highlight (returncode : Int) (stdout : String) : Except PyErr Int :=
  if returncode = 0 then
    match (pySplitSpace stdout.data).get? 3 with
    | none => .error .indexError
    | some token =>
      match ACCENT_DEFINITIONS.find? (fun e => e.2.1 == String.mk (token.take (token.length - 1))) with
      | some e => .ok e.1
      | none => .error .valueError
  else .ok (-2)

/-- The `value_text` string built by `set_highlight`:
`str.join(' ', [str(val) for val in ACCENT_DEFINITIONS[value][1]] + [ACCENT_DEFINITIONS[value][0]])`.
The `none` branch is unreachable at `set_highlight`'s call site, which guards
membership first (a Python dict lookup of a missing key would raise). -/
def highlight_value_text (value : Int) : String :=
  match ACCENT_DEFINITIONS.find? (fun e => e.1 == value) with
  | some e =>
    String.intercalate (" ") [pyFloatStr e.2.2.1, pyFloatStr e.2.2.2.1, pyFloatStr e.2.2.2.2, e.2.1]
  | none => ""

/-- The function `set_highlight`: the command string passed to `os.system`. -/
def set_highlight (value : Int) : String :=
  if value ∈ accentKeys ∧ value ≠ -2 then
    "defaults write 'Apple Global Domain' AppleHighlightColor '" ++ highlight_value_text value ++ "'"
  else
    "defaults delete 'Apple Global Domain' AppleHighlightColor"

/-- The function `hex_colour_to_decimal_rgb`.  Python evaluates the slice conversions left
to right and the first failing `int(·, 16)` raises `ValueError`; `s[0]` on an
empty string raises `IndexError`. -/
def hex_colour_to_decimal_rgb (hex_colour : String) : Except PyErr (ℚ × ℚ × ℚ) :=
  match hex_colour.data with
  | [] => .error .indexError
  | c :: _ =>
    if c = '#' then
      match pyIntStr16 (pySlice hex_colour 1 3), pyIntStr16 (pySlice hex_colour 3 5),
          pyIntStr16 (pySlice hex_colour 5 7) with
      | some r, some g, some b => .ok ((r : ℚ) / 255, (g : ℚ) / 255, (b : ℚ) / 255)
      | _, _, _ => .error .valueError
    else
      match pyIntStr16 (pySlice hex_colour 0 2), pyIntStr16 (pySlice hex_colour 2 4),
          pyIntStr16 (pySlice hex_colour 4 6) with
      | some r, some g, some b => .ok ((r : ℚ) / 255, (g : ℚ) / 255, (b : ℚ) / 255)
      | _, _, _ => .error .valueError

/-- The function `get_closeness`: `sum([abs(colour1[i] - colour2[i]) for i in range(0, 3)])`. -/
def get_closeness (colour1 colour2 : ℚ × ℚ × ℚ) : ℚ :=
  |colour1.1 - colour2.1| + |colour1.2.1 - colour2.2.1| + |colour1.2.2 - colour2.2.2|

/-- The `current_closeness` of the cumulative loop body:
`sum([get_closeness(c, ACCENT_DEFINITIONS[i][1]) for c in decimal_rgb_colours])`. -/
def cumulativeCloseness (rgbs : List (ℚ × ℚ × ℚ)) (e : Int × String × Nat × Nat × Nat) : ℚ :=
  (rgbs.map (fun c => get_closeness c (entryRGB e))).sum

/-- The function `get_closest_to_single_colour`. -/
def get_closest_to_single_colour (hex_colour : String) : Except PyErr Int := do
  let decimal_rgb ← hex_colour_to_decimal_rgb hex_colour
  let r := ACCENT_DEFINITIONS.foldl
    (fun (acc : ℚ × Int) e =>
      if get_closeness decimal_rgb (entryRGB e) < acc.1 then
        (get_closeness decimal_rgb (entryRGB e), e.1)
      else acc)
    ((3 : ℚ), (-2 : Int))
  pure r.2

/-- The function `get_cumulative_closest_to_multiple_colours`. -/
def get_cumulative_closest_to_multiple_colours (hex_colours : List String) :
    Except PyErr Int := do
  let decimal_rgb_colours ← hex_colours.mapM hex_colour_to_decimal_rgb
  let r := ACCENT_DEFINITIONS.foldl
    (fun (acc : ℚ × Int) e =>
      if cumulativeCloseness decimal_rgb_colours e < acc.1 then
        (cumulativeCloseness decimal_rgb_colours e, e.1)
      else acc)
    ((3 : ℚ) * decimal_rgb_colours.length, (-2 : Int))
  pure r.2

/-- Python dict insertion `d[k] = v`: replace in place, else append. -/
def dictSet (d : List (Nat × Int)) (k : Nat) (v : Int) : List (Nat × Int) :=
  match d with
  | [] => [(k, v)]
  | (k', v') :: rest => if k' = k then (k, v) :: rest else (k', v') :: dictSet rest k v

/-- The expression `max(dict.keys(d))`; `none` models the `ValueError` of `max` on an empty
sequence. -/
def dictMaxKey? (d : List (Nat × Int)) : Option Nat :=
  match d.map Prod.fst with
  | [] => none
  | k :: ks => some (ks.foldl max k)

/-- The function `get_mean_closest_to_multiple_colours`: nearest key per colour, then the
dict comprehension `{count: colour}` (later entries overwrite equal counts),
then index the dict at the maximal count. -/
def get_mean_closest_to_multiple_colours (hex_colours : List String) :
    Except PyErr Int := do
  let closest_colours ← hex_colours.mapM get_closest_to_single_colour
  let occurrences := closest_colours.foldl
    (fun d closest_colour => dictSet d (closest_colours.count closest_colour) closest_colour) []
  match dictMaxKey? occurrences with
  | none => .error .valueError
  | some m =>
    match occurrences.lookup m with
    | some c => .ok c
    | none => .error .keyError

/-- The function `set_closest_colour`: the pair of command strings handed to `os.system`,
in order (accent first, then highlight). -/
def set_closest_colour (hex_colours : List String) : Except PyErr (String × String) := do
  let closest ← get_mean_closest_to_multiple_colours hex_colours
  pure (set_accent closest, set_highlight closest)

/-! ### Spec-side definitions (from the claims' wording, for comparison) -/

/-- Claim C2's validity predicate: after stripping an optional leading `#`,
the string is exactly 6 hex digits. -/
def ValidHex (s : String) : Bool :=
  let l := if s.data.head? = some '#' then s.data.tail else s.data
  l.length == 6 && l.all (fun c => (digitVal16? c).isSome)

/-- Claim C3's float format (fixed six decimal digits), for a channel value of
`n6` millionths. -/
def sixDecimalDigitStr (n6 : Nat) : String :=
  let digits := toString (n6 % 1000000)
  toString (n6 / 1000000) ++ "." ++
    String.mk (List.replicate (6 - digits.length) '0' ++ digits.data)

/-- Claim C3's highlight value format: the three channels in fixed six-decimal
format, space separated, followed by the display name. -/
def highlight_value_text_sixdigit (value : Int) : String :=
  match ACCENT_DEFINITIONS.find? (fun e => e.1 == value) with
  | some e =>
    String.intercalate (" ")
      [sixDecimalDigitStr e.2.2.1, sixDecimalDigitStr e.2.2.2.1, sixDecimalDigitStr e.2.2.2.2, e.2.1]
  | none => ""

/-- The property "invokes the preference-write command": the command string starts with
`defaults write`. -/
def isWriteCmd (s : String) : Bool := List.isPrefixOf ("defaults write".data) s.data

/-- The property "invokes the preference-delete command": the command string starts with
`defaults delete`. -/
def isDeleteCmd (s : String) : Bool := List.isPrefixOf ("defaults delete".data) s.data

/-! ### Helper lemmas about the selection loop -/

/-- The running minimum of the program's strictly-less selection loop never
exceeds the initial bound nor any scanned cost. -/
theorem foldl_sel_le {α : Type} (cost : α → ℚ) (key : α → Int) :
    ∀ (l : List α) (p : ℚ × Int),
      (List.foldl (fun acc a => if cost a < acc.1 then (cost a, key a) else acc) p l).1 ≤ p.1 ∧
      ∀ a ∈ l,
        (List.foldl (fun acc a => if cost a < acc.1 then (cost a, key a) else acc) p l).1 ≤
          cost a := by
  intro l
  induction l with
  | nil => intro p; exact ⟨le_refl _, by simp⟩
  | cons x xs ih =>
    intro p
    simp only [List.foldl_cons]
    obtain ⟨h1, h2⟩ := ih (if cost x < p.1 then (cost x, key x) else p)
    have hle : (if cost x < p.1 then (cost x, key x) else p).1 ≤ p.1 := by
      split
      · exact le_of_lt (by assumption)
      · exact le_refl _
    have hx : (if cost x < p.1 then (cost x, key x) else p).1 ≤ cost x := by
      split
      · exact le_refl _
      · exact le_of_not_lt (by assumption)
    refine ⟨le_trans h1 hle, ?_⟩
    intro a ha
    rcases List.mem_cons.mp ha with rfl | ha'
    · exact le_trans h1 hx
    · exact h2 a ha'

/-- The selection loop returns either its initial accumulator or the cost/key
pair of some scanned element. -/
theorem foldl_sel_result {α : Type} (cost : α → ℚ) (key : α → Int) :
    ∀ (l : List α) (p : ℚ × Int),
      List.foldl (fun acc a => if cost a < acc.1 then (cost a, key a) else acc) p l = p ∨
      ∃ a ∈ l,
        List.foldl (fun acc a => if cost a < acc.1 then (cost a, key a) else acc) p l =
          (cost a, key a) := by
  intro l
  induction l with
  | nil => intro p; exact Or.inl rfl
  | cons x xs ih =>
    intro p
    simp only [List.foldl_cons]
    rcases ih (if cost x < p.1 then (cost x, key x) else p) with h | ⟨a, ha, h⟩
    · rw [h]
      split
      · exact Or.inr ⟨x, List.mem_cons_self x xs, rfl⟩
      · exact Or.inl rfl
    · exact Or.inr ⟨a, List.mem_cons_of_mem x ha, h⟩

/-- If no scanned cost beats the initial bound, the loop returns the initial
accumulator unchanged. -/
theorem foldl_sel_noupdate {α : Type} (cost : α → ℚ) (key : α → Int) :
    ∀ (l : List α) (p : ℚ × Int), (∀ a ∈ l, ¬cost a < p.1) →
      List.foldl (fun acc a => if cost a < acc.1 then (cost a, key a) else acc) p l = p := by
  intro l
  induction l with
  | nil => intro p _; rfl
  | cons x xs ih =>
    intro p hp
    simp only [List.foldl_cons]
    rw [if_neg (hp x (List.mem_cons_self x xs))]
    exact ih p (fun a ha => hp a (List.mem_cons_of_mem x ha))

/-- If some scanned cost beats the initial bound, the loop returns the
cost/key pair of a scanned element of minimal cost, and that cost is below the
bound. -/
theorem foldl_sel_spec {α : Type} (cost : α → ℚ) (key : α → Int) (l : List α) (b : ℚ)
    (k0 : Int) (h : ∃ a ∈ l, cost a < b) :
    ∃ a ∈ l,
      List.foldl (fun acc a => if cost a < acc.1 then (cost a, key a) else acc) (b, k0) l =
        (cost a, key a) ∧ cost a < b ∧ ∀ a' ∈ l, cost a ≤ cost a' := by
  obtain ⟨a0, ha0, hc0⟩ := h
  obtain ⟨hle, hall⟩ := foldl_sel_le cost key l (b, k0)
  have hlt : (List.foldl (fun acc a => if cost a < acc.1 then (cost a, key a) else acc)
      (b, k0) l).1 < b := lt_of_le_of_lt (hall a0 ha0) hc0
  rcases foldl_sel_result cost key l (b, k0) with h | ⟨a, ha, h⟩
  · rw [h] at hlt
    exact absurd hlt (lt_irrefl b)
  · refine ⟨a, ha, h, ?_, ?_⟩
    · rw [h] at hlt
      exact hlt
    · intro a' ha'
      have := hall a' ha'
      rw [h] at this
      exact this

/-! ### Claim theorems -/

/-- Claim C1, counterexample: with exit code 0 and unparsable output `"abc"`,
`read_accent` raises `ValueError` instead of returning the sentinel `-2`, so
the claim "if it exits zero but its output text is not parsable as an integer,
readAccent returns the sentinel -2 and never raises" is false. -/
theorem read_accent_unparsable_raises :
    pyIntStr10 ("abc") = none ∧ read_accent 0 "abc" = .error .valueError ∧
      read_accent 0 "abc" ≠ .ok (-2) := by decide

/-- Claim C1, amended: on a non-zero exit `read_accent` returns the sentinel `-2`;
on a zero exit whose output parses as an integer it returns that integer; on a
zero exit whose output is not parsable it raises `ValueError` (it does not
return `-2`). -/
theorem read_accent_spec (rc : Int) (out : String) :
    (rc ≠ 0 → read_accent rc out = .ok (-2)) ∧
    (∀ n : Int, pyIntStr10 out = some n → read_accent 0 out = .ok n) ∧
    (pyIntStr10 out = none → read_accent 0 out = .error .valueError) := by
  refine ⟨fun h => ?_, fun n hn => ?_, fun hn => ?_⟩
  · simp [read_accent, h]
  · simp [read_accent, hn]
  · simp [read_accent, hn]

/-- Witness for C1's amended theorem at exit code 1. -/
theorem read_accent_spec_witness : (1 : Int) ≠ 0 ∧ read_accent 1 "" = .ok (-2) :=
  ⟨by decide, (read_accent_spec 1 "").1 (by decide)⟩

/-- Claim C3, counterexample: key 6 ("Pink").  The claim's fixed six-decimal-digit
format would be `"1.000000 0.749020 0.823529 Pink"`, but `set_highlight 6`
writes `"1.0 0.74902 0.823529 Pink"` (Python `str()` of a float drops trailing
zeros), so the written value is not the six-decimal-digit formatting. -/
theorem set_highlight_pink_not_sixdigit :
    highlight_value_text_sixdigit 6 = "1.000000 0.749020 0.823529 Pink" ∧
    set_highlight 6 =
      "defaults write 'Apple Global Domain' AppleHighlightColor '1.0 0.74902 0.823529 Pink'" ∧
    highlight_value_text 6 ≠ highlight_value_text_sixdigit 6 := by decide

/-- Claim C3, amended: for every non-sentinel palette key, `set_highlight` writes
the three channel floats in Python's default shortest `str()` form (trailing
fractional zeros dropped, `1.0` for one), space-separated, followed by the
display name.  Key 3 writes `"0.752941 0.964706 0.678431 Green"` exactly as
the claim's example says; keys whose channels end in `0` (or are `1.0`) do
not carry six decimal digits. -/
theorem set_highlight_value_format :
    set_highlight 5 =
      "defaults write 'Apple Global Domain' AppleHighlightColor '0.968627 0.831373 1.0 Purple'" ∧
    set_highlight 6 =
      "defaults write 'Apple Global Domain' AppleHighlightColor '1.0 0.74902 0.823529 Pink'" ∧
    set_highlight 0 =
      "defaults write 'Apple Global Domain' AppleHighlightColor '1.0 0.733333 0.721569 Red'" ∧
    set_highlight 1 =
      "defaults write 'Apple Global Domain' AppleHighlightColor '1.0 0.87451 0.701961 Orange'" ∧
    set_highlight 2 =
      "defaults write 'Apple Global Domain' AppleHighlightColor '1.0 0.937255 0.690196 Yellow'" ∧
    set_highlight 3 =
      "defaults write 'Apple Global Domain' AppleHighlightColor '0.752941 0.964706 0.678431 Green'" ∧
    set_highlight (-1) =
      "defaults write 'Apple Global Domain' AppleHighlightColor '0.847059 0.847059 0.862745 Graphite'" := by
  decide

/-- Claim C6: for a palette key, `set_accent` and `set_highlight` issue the
preference-write command exactly when the key differs from the sentinel `-2`,
and issue the preference-delete command exactly when it equals `-2`. -/
theorem set_sentinel_branching (k : Int) (hk : k ∈ accentKeys) :
    (isWriteCmd (set_accent k) = true ↔ k ≠ -2) ∧
    (isDeleteCmd (set_accent k) = true ↔ k = -2) ∧
    (isWriteCmd (set_highlight k) = true ↔ k ≠ -2) ∧
    (isDeleteCmd (set_highlight k) = true ↔ k = -2) := by
  simp only [accentKeys, ACCENT_DEFINITIONS, List.map_cons, List.map_nil, List.mem_cons,
    List.not_mem_nil, or_false] at hk
  rcases hk with rfl | rfl | rfl | rfl | rfl | rfl | rfl | rfl <;> decide

/-- Witness for C6 at key 3. -/
theorem set_sentinel_branching_witness :
    (3 : Int) ∈ accentKeys ∧
    ((isWriteCmd (set_accent 3) = true ↔ (3 : Int) ≠ -2) ∧
      (isDeleteCmd (set_accent 3) = true ↔ (3 : Int) = -2) ∧
      (isWriteCmd (set_highlight 3) = true ↔ (3 : Int) ≠ -2) ∧
      (isDeleteCmd (set_highlight 3) = true ↔ (3 : Int) = -2)) :=
  ⟨by decide, set_sentinel_branching 3 (by decide)⟩

/-- Claim C7: for every non-sentinel palette key `k`, `set_highlight k` writes the
value string `highlight_value_text k`, and parsing that stored value back
(`defaults read` echoes it followed by a newline) through `read_highlight`
returns `k`; in particular this holds for key 3 ("Green"). -/
theorem highlight_write_read_roundtrip (k : Int) (hk : k ∈ accentKeys) (hs : k ≠ -2) :
    set_highlight k =
      "defaults write 'Apple Global Domain' AppleHighlightColor '" ++
        highlight_value_text k ++ "'" ∧
    read_highlight 0 (highlight_value_text k ++ "\n") = .ok k := by
  simp only [accentKeys, ACCENT_DEFINITIONS, List.map_cons, List.map_nil, List.mem_cons,
    List.not_mem_nil, or_false] at hk
  rcases hk with rfl | rfl | rfl | rfl | rfl | rfl | rfl | rfl
  · exact absurd rfl hs
  all_goals decide

/-- Witness for C7 at key 3 ("Green"). -/
theorem highlight_write_read_roundtrip_witness :
    (3 : Int) ∈ accentKeys ∧ (3 : Int) ≠ -2 ∧
    (set_highlight 3 =
        "defaults write 'Apple Global Domain' AppleHighlightColor '" ++
          highlight_value_text 3 ++ "'" ∧
      read_highlight 0 (highlight_value_text 3 ++ "\n") = .ok 3) :=
  ⟨by decide, by decide, highlight_write_read_roundtrip 3 (by decide) (by decide)⟩

/-- Claim C9: an integer that is no palette key at all (such as 256) fails the
write-branch membership test, so `set_accent` and `set_highlight` issue the
preference-delete command, exactly as they do for the sentinel `-2`. -/
theorem set_out_of_palette_deletes (v : Int) (hv : v ∉ accentKeys) :
    set_accent v = "defaults delete 'Apple Global Domain' AppleAccentColor" ∧
    set_highlight v = "defaults delete 'Apple Global Domain' AppleHighlightColor" ∧
    set_accent v = set_accent (-2) ∧ set_highlight v = set_highlight (-2) := by
  have h1 : ¬(v ∈ accentKeys ∧ v ≠ -2) := fun h => hv h.1
  have ha : set_accent v = "defaults delete 'Apple Global Domain' AppleAccentColor" := by
    unfold set_accent
    rw [if_neg h1]
  have hh : set_highlight v = "defaults delete 'Apple Global Domain' AppleHighlightColor" := by
    unfold set_highlight
    rw [if_neg h1]
  refine ⟨ha, hh, ?_, ?_⟩
  · rw [ha]; decide
  · rw [hh]; decide

/-- Witness for C9 at 256. -/
theorem set_out_of_palette_deletes_witness :
    (256 : Int) ∉ accentKeys ∧
    (set_accent 256 = "defaults delete 'Apple Global Domain' AppleAccentColor" ∧
      set_highlight 256 = "defaults delete 'Apple Global Domain' AppleHighlightColor" ∧
      set_accent 256 = set_accent (-2) ∧ set_highlight 256 = set_highlight (-2)) :=
  ⟨by decide, set_out_of_palette_deletes 256 (by decide)⟩

/-- Binding an `Except.ok` computes. -/
theorem exceptBindOk {ε α β : Type} (a : α) (k : α → Except ε β) :
    (Except.ok a >>= k) = k a := rfl

/-- Binding an `Except.error` short-circuits. -/
theorem exceptBindErr {ε α β : Type} (e : ε) (k : α → Except ε β) :
    ((Except.error e : Except ε α) >>= k) = Except.error e := rfl

/-- On the empty list the cumulative bound is `3 * 0 = 0`, no entry's
cumulative closeness (all `0`) is strictly below it, and the untouched default
`-2` is returned. -/
theorem cum_empty_eval : get_cumulative_closest_to_multiple_colours [] = .ok (-2) := by
  have hnone : ∀ a ∈ ACCENT_DEFINITIONS,
      ¬cumulativeCloseness [] a <
        (((3 : ℚ) * (([] : List (ℚ × ℚ × ℚ)).length : ℚ), (-2 : Int))).1 := by
    intro a _
    simp [cumulativeCloseness]
  have hfold := foldl_sel_noupdate (cumulativeCloseness []) (fun e => e.1) ACCENT_DEFINITIONS
    ((3 : ℚ) * (([] : List (ℚ × ℚ × ℚ)).length : ℚ), (-2 : Int)) hnone
  unfold get_cumulative_closest_to_multiple_colours
  rw [show ([] : List String).mapM hex_colour_to_decimal_rgb = Except.ok [] from rfl,
    exceptBindOk]
  rw [hfold]
  rfl

/-- Claim C10: on the empty input list the majority policy raises (Python `max` of
an empty sequence), and `set_closest_colour` propagates that error, while the
cumulative policy returns the sentinel `-2` without error. -/
theorem empty_list_policies_disagree :
    get_mean_closest_to_multiple_colours [] = .error .valueError ∧
    set_closest_colour [] = .error .valueError ∧
    get_cumulative_closest_to_multiple_colours [] = .ok (-2) :=
  ⟨rfl, rfl, cum_empty_eval⟩

/-- Claim C8: `set_closest_colour` computes the majority-of-nearest key
(`get_mean_closest_to_multiple_colours`, not the cumulative policy) and, when
that computation yields a key, applies that single key to both the accent and
the highlight preference commands; its errors are the majority computation's
errors. -/
theorem set_closest_uses_majority (hex_colours : List String) :
    set_closest_colour hex_colours =
      (get_mean_closest_to_multiple_colours hex_colours).map
        (fun k => (set_accent k, set_highlight k)) := by
  unfold set_closest_colour
  cases h : get_mean_closest_to_multiple_colours hex_colours <;> simp [h, Except.map]

/-! ### Symbolic facts about hex-digit parsing (for C2, C4, C5) -/

/-- A successfully looked-up hex digit is at most 15 and its character lies in
one of the three ASCII digit ranges. -/
theorem digitVal16_facts {c : Char} {d : Nat} (h : digitVal16? c = some d) :
    d ≤ 15 ∧ ((48 ≤ c.toNat ∧ c.toNat ≤ 57) ∨ (97 ≤ c.toNat ∧ c.toNat ≤ 102) ∨
      (65 ≤ c.toNat ∧ c.toNat ≤ 70)) := by
  simp only [digitVal16?] at h
  split_ifs at h with h1 h2 h3
  · simp only [Bool.and_eq_true, decide_eq_true_eq] at h1
    injection h with h'
    omega
  · simp only [Bool.and_eq_true, decide_eq_true_eq] at h2
    injection h with h'
    omega
  · simp only [Bool.and_eq_true, decide_eq_true_eq] at h3
    injection h with h'
    omega

/-- Hex digits are not Python whitespace. -/
theorem hexDigit_not_space {c : Char} {d : Nat} (h : digitVal16? c = some d) :
    isPySpace c = false := by
  obtain ⟨-, hr⟩ := digitVal16_facts h
  rw [Bool.eq_false_iff]
  intro htrue
  simp only [isPySpace, Bool.or_eq_true, Bool.and_eq_true, decide_eq_true_eq,
    beq_iff_eq] at htrue
  omega

/-- Hex digits are none of the special characters the parser treats
specially. -/
theorem hexDigit_ne {c : Char} {d : Nat} (h : digitVal16? c = some d) :
    c ≠ '+' ∧ c ≠ '-' ∧ c ≠ '_' ∧ c ≠ '#' ∧ c ≠ 'x' ∧ c ≠ 'X' := by
  obtain ⟨-, hr⟩ := digitVal16_facts h
  refine ⟨?_, ?_, ?_, ?_, ?_, ?_⟩ <;> (intro he; subst he; revert hr; decide)

/-- Python `int(·, 16)` of a two-hex-digit string is the place-value number. -/
theorem pyInt16_two_hexdigits {a b : Char} {da db : Nat}
    (ha : digitVal16? a = some da) (hb : digitVal16? b = some db) :
    pyIntStr16 (String.mk [a, b]) = some (Int.ofNat (da * 16 + db)) := by
  have hsa := hexDigit_not_space ha
  have hsb := hexDigit_not_space hb
  obtain ⟨hap, -, -, -, -, -⟩ := hexDigit_ne ha
  obtain ⟨hbp, hbm, hbu, -, hbx, hbX⟩ := hexDigit_ne hb
  obtain ⟨-, ham, -, -, -, -⟩ := hexDigit_ne ha
  have hstrip : pyStrip [a, b] = [a, b] := by
    simp [pyStrip, List.dropWhile, hsa, hsb]
  show pyIntOfList parseHexBody [a, b] = some (Int.ofNat (da * 16 + db))
  simp only [pyIntOfList, hstrip, List.head?_cons]
  rw [if_neg (by simp [hap]), if_neg (by simp [ham])]
  have hbody : parseHexBody [a, b] = some (da * 16 + db) := by
    simp only [parseHexBody]
    rw [if_neg (by rintro ⟨-, hx | hX⟩; exact hbx hx; exact hbX hX)]
    simp only [parseDigits, ha, parseTail]
    rw [if_neg hbu]
    simp [hb]
  rw [hbody]
  rfl

/-- Unfolding of `hex_colour_to_decimal_rgb` on a nonempty character list. -/
theorem hex_cons_eval (c : Char) (rest : List Char) :
    hex_colour_to_decimal_rgb (String.mk (c :: rest)) =
      (if c = '#' then
        match pyIntStr16 (pySlice (String.mk (c :: rest)) 1 3),
            pyIntStr16 (pySlice (String.mk (c :: rest)) 3 5),
            pyIntStr16 (pySlice (String.mk (c :: rest)) 5 7) with
        | some r, some g, some b => .ok ((r : ℚ) / 255, (g : ℚ) / 255, (b : ℚ) / 255)
        | _, _, _ => .error .valueError
      else
        match pyIntStr16 (pySlice (String.mk (c :: rest)) 0 2),
            pyIntStr16 (pySlice (String.mk (c :: rest)) 2 4),
            pyIntStr16 (pySlice (String.mk (c :: rest)) 4 6) with
        | some r, some g, some b => .ok ((r : ℚ) / 255, (g : ℚ) / 255, (b : ℚ) / 255)
        | _, _, _ => .error .valueError) := rfl

/-- Evaluating `hex_colour_to_decimal_rgb` on a string of six hex digits (bare or with a
leading `#`) returns the three consecutive two-digit values divided by 255. -/
theorem hex_six_eval {c0 c1 c2 c3 c4 c5 : Char} {d0 d1 d2 d3 d4 d5 : Nat}
    (h0 : digitVal16? c0 = some d0) (h1 : digitVal16? c1 = some d1)
    (h2 : digitVal16? c2 = some d2) (h3 : digitVal16? c3 = some d3)
    (h4 : digitVal16? c4 = some d4) (h5 : digitVal16? c5 = some d5) :
    hex_colour_to_decimal_rgb (String.mk [c0, c1, c2, c3, c4, c5]) =
      .ok ((Int.ofNat (d0 * 16 + d1) : ℚ) / 255, (Int.ofNat (d2 * 16 + d3) : ℚ) / 255,
        (Int.ofNat (d4 * 16 + d5) : ℚ) / 255) ∧
    hex_colour_to_decimal_rgb (String.mk ['#', c0, c1, c2, c3, c4, c5]) =
      .ok ((Int.ofNat (d0 * 16 + d1) : ℚ) / 255, (Int.ofNat (d2 * 16 + d3) : ℚ) / 255,
        (Int.ofNat (d4 * 16 + d5) : ℚ) / 255) := by
  have hh0 : c0 ≠ '#' := (hexDigit_ne h0).2.2.2.1
  constructor
  · rw [hex_cons_eval, if_neg hh0]
    rw [show pySlice (String.mk [c0, c1, c2, c3, c4, c5]) 0 2 = String.mk [c0, c1] from rfl,
      show pySlice (String.mk [c0, c1, c2, c3, c4, c5]) 2 4 = String.mk [c2, c3] from rfl,
      show pySlice (String.mk [c0, c1, c2, c3, c4, c5]) 4 6 = String.mk [c4, c5] from rfl,
      pyInt16_two_hexdigits h0 h1, pyInt16_two_hexdigits h2 h3, pyInt16_two_hexdigits h4 h5]
  · rw [hex_cons_eval, if_pos rfl]
    rw [show pySlice (String.mk ['#', c0, c1, c2, c3, c4, c5]) 1 3 = String.mk [c0, c1] from
        rfl,
      show pySlice (String.mk ['#', c0, c1, c2, c3, c4, c5]) 3 5 = String.mk [c2, c3] from rfl,
      show pySlice (String.mk ['#', c0, c1, c2, c3, c4, c5]) 5 7 = String.mk [c4, c5] from rfl,
      pyInt16_two_hexdigits h0 h1, pyInt16_two_hexdigits h2 h3, pyInt16_two_hexdigits h4 h5]

/-- Claim C2, counterexample: `"aabbccdd"` is not 6 hex digits after stripping an
optional `#` (it is 8), yet `hex_colour_to_decimal_rgb` returns a value
instead of failing: the function only examines the first six characters. -/
theorem hex_eight_digits_accepted :
    ValidHex ("aabbccdd") = false ∧
    hex_colour_to_decimal_rgb ("aabbccdd") =
      .ok ((Int.ofNat 170 : ℚ) / 255, (Int.ofNat 187 : ℚ) / 255, (Int.ofNat 204 : ℚ) / 255) :=
  ⟨by decide, rfl⟩

/-- Claim C2, amended: every string of exactly six hex digits, bare or with a
leading `#`, yields the three consecutive two-digit hex values divided
by 255; but the converse direction of the claim fails: the function examines
only the first six (seven with `#`) characters, so some other strings also
succeed (`"aabbccdd"` has 8 hex digits, `"aabbc"` only 5, and both return
values), while a string whose examined slices are unparsable raises
`ValueError` and the empty string raises `IndexError`. -/
theorem hex_colour_to_decimal_rgb_spec (c0 c1 c2 c3 c4 c5 : Char) (d0 d1 d2 d3 d4 d5 : Nat)
    (h0 : digitVal16? c0 = some d0) (h1 : digitVal16? c1 = some d1)
    (h2 : digitVal16? c2 = some d2) (h3 : digitVal16? c3 = some d3)
    (h4 : digitVal16? c4 = some d4) (h5 : digitVal16? c5 = some d5) :
    (hex_colour_to_decimal_rgb (String.mk [c0, c1, c2, c3, c4, c5]) =
        .ok ((Int.ofNat (d0 * 16 + d1) : ℚ) / 255, (Int.ofNat (d2 * 16 + d3) : ℚ) / 255,
          (Int.ofNat (d4 * 16 + d5) : ℚ) / 255) ∧
      hex_colour_to_decimal_rgb (String.mk ['#', c0, c1, c2, c3, c4, c5]) =
        .ok ((Int.ofNat (d0 * 16 + d1) : ℚ) / 255, (Int.ofNat (d2 * 16 + d3) : ℚ) / 255,
          (Int.ofNat (d4 * 16 + d5) : ℚ) / 255)) ∧
    hex_colour_to_decimal_rgb ("") = .error .indexError ∧
    hex_colour_to_decimal_rgb ("zzzzzz") = .error .valueError ∧
    hex_colour_to_decimal_rgb ("aabbc") =
      .ok ((Int.ofNat 170 : ℚ) / 255, (Int.ofNat 187 : ℚ) / 255, (Int.ofNat 12 : ℚ) / 255) :=
  ⟨hex_six_eval h0 h1 h2 h3 h4 h5, rfl, rfl, rfl⟩

/-- Witness for C2's amended theorem at `"00ff7f"`. -/
theorem hex_colour_to_decimal_rgb_spec_witness :
    hex_colour_to_decimal_rgb (String.mk ['0', '0', 'f', 'f', '7', 'f']) =
      .ok ((Int.ofNat (0 * 16 + 0) : ℚ) / 255, (Int.ofNat (15 * 16 + 15) : ℚ) / 255,
        (Int.ofNat (7 * 16 + 15) : ℚ) / 255) :=
  (hex_colour_to_decimal_rgb_spec '0' '0' 'f' 'f' '7' 'f' 0 0 15 15 7 15
    (by decide) (by decide) (by decide) (by decide) (by decide) (by decide)).1.1

/-- Claim C5: on a single-element list the cumulative policy computes exactly the
single-colour policy: the scanned costs coincide (a one-element sum) and so do
the initial bounds (`3 * 1 = 3`). -/
theorem cumulative_singleton_eq_single (h : String) (_hv : ValidHex h = true) :
    get_cumulative_closest_to_multiple_colours [h] = get_closest_to_single_colour h := by
  unfold get_cumulative_closest_to_multiple_colours get_closest_to_single_colour
  rw [List.mapM_cons, List.mapM_nil]
  cases hq : hex_colour_to_decimal_rgb h with
  | error e => rfl
  | ok q =>
    show (Except.ok q >>= fun y => (pure [] : Except PyErr (List (ℚ × ℚ × ℚ))) >>=
        fun ys => pure (y :: ys)) >>= _ = _
    rw [exceptBindOk]
    rw [show ((pure [] : Except PyErr (List (ℚ × ℚ × ℚ))) >>= fun ys => pure (q :: ys)) =
      Except.ok [q] from rfl]
    rw [exceptBindOk, exceptBindOk]
    have hinit : ((3 : ℚ) * (([q] : List (ℚ × ℚ × ℚ)).length : ℚ)) = 3 := by norm_num
    rw [hinit]
    rw [List.foldl_ext _
      (fun (acc : ℚ × Int) e =>
        if get_closeness q (entryRGB e) < acc.1 then (get_closeness q (entryRGB e), e.1)
        else acc)
      ((3 : ℚ), (-2 : Int))
      (fun acc e _ => by simp [cumulativeCloseness])]

/-- Witness for C5 at `"ff0000"`. -/
theorem cumulative_singleton_eq_single_witness :
    ValidHex ("ff0000") = true ∧
    get_cumulative_closest_to_multiple_colours ["ff0000"] =
      get_closest_to_single_colour ("ff0000") :=
  ⟨by decide, cumulative_singleton_eq_single ("ff0000") (by decide)⟩

/-- A parsed colour lies in the unit cube (claim C4's "valid hex colors"). -/
def InUnit (q : ℚ × ℚ × ℚ) : Prop :=
  0 ≤ q.1 ∧ q.1 ≤ 1 ∧ 0 ≤ q.2.1 ∧ q.2.1 ≤ 1 ∧ 0 ≤ q.2.2 ∧ q.2.2 ≤ 1

/-- A two-hex-digit channel value divided by 255 lies in `[0, 1]`. -/
theorem pair_channel_bounds {d e : Nat} (hd : d ≤ 15) (he : e ≤ 15) :
    (0 : ℚ) ≤ (Int.ofNat (d * 16 + e) : ℚ) / 255 ∧ (Int.ofNat (d * 16 + e) : ℚ) / 255 ≤ 1 := by
  have hd' : (d : ℚ) ≤ 15 := by exact_mod_cast hd
  have he' : (e : ℚ) ≤ 15 := by exact_mod_cast he
  constructor
  · apply div_nonneg _ (by norm_num : (0 : ℚ) ≤ 255)
    simp only [Int.ofNat_eq_natCast]
    push_cast
    positivity
  · rw [div_le_one (by norm_num : (0 : ℚ) < 255)]
    simp only [Int.ofNat_eq_natCast]
    push_cast
    linarith

/-- A list of length six is six elements. -/
theorem list_len6 {α : Type} {l : List α} (h : l.length = 6) :
    ∃ a0 a1 a2 a3 a4 a5, l = [a0, a1, a2, a3, a4, a5] := by
  rcases l with _ | ⟨a0, _ | ⟨a1, _ | ⟨a2, _ | ⟨a3, _ | ⟨a4, _ | ⟨a5, _ | ⟨a6, t⟩⟩⟩⟩⟩⟩⟩
  all_goals simp only [List.length_cons, List.length_nil] at h
  all_goals first
    | exact ⟨a0, a1, a2, a3, a4, a5, rfl⟩
    | omega

/-- A string satisfying C2's validity predicate parses to a colour in the
unit cube. -/
theorem valid_hex_parse {s : String} (hv : ValidHex s = true) :
    ∃ p, hex_colour_to_decimal_rgb s = .ok p ∧ InUnit p := by
  obtain ⟨l⟩ := s
  simp only [ValidHex, Bool.and_eq_true, beq_iff_eq, List.all_eq_true] at hv
  split_ifs at hv with hh
  · obtain ⟨hlen, hall⟩ := hv
    rcases l with _ | ⟨c, t⟩
    · exact absurd hh (by simp)
    · have hc : c = '#' := by simpa using hh
      subst hc
      simp only [List.tail_cons] at hlen hall
      obtain ⟨c0, c1, c2, c3, c4, c5, rfl⟩ := list_len6 hlen
      obtain ⟨d0, hd0⟩ := Option.isSome_iff_exists.mp (hall c0 (by simp))
      obtain ⟨d1, hd1⟩ := Option.isSome_iff_exists.mp (hall c1 (by simp))
      obtain ⟨d2, hd2⟩ := Option.isSome_iff_exists.mp (hall c2 (by simp))
      obtain ⟨d3, hd3⟩ := Option.isSome_iff_exists.mp (hall c3 (by simp))
      obtain ⟨d4, hd4⟩ := Option.isSome_iff_exists.mp (hall c4 (by simp))
      obtain ⟨d5, hd5⟩ := Option.isSome_iff_exists.mp (hall c5 (by simp))
      refine ⟨_, (hex_six_eval hd0 hd1 hd2 hd3 hd4 hd5).2, ?_⟩
      obtain ⟨b0, b1⟩ := pair_channel_bounds (digitVal16_facts hd0).1 (digitVal16_facts hd1).1
      obtain ⟨b2, b3⟩ := pair_channel_bounds (digitVal16_facts hd2).1 (digitVal16_facts hd3).1
      obtain ⟨b4, b5⟩ := pair_channel_bounds (digitVal16_facts hd4).1 (digitVal16_facts hd5).1
      exact ⟨b0, b1, b2, b3, b4, b5⟩
  · obtain ⟨hlen, hall⟩ := hv
    obtain ⟨c0, c1, c2, c3, c4, c5, rfl⟩ := list_len6 hlen
    obtain ⟨d0, hd0⟩ := Option.isSome_iff_exists.mp (hall c0 (by simp))
    obtain ⟨d1, hd1⟩ := Option.isSome_iff_exists.mp (hall c1 (by simp))
    obtain ⟨d2, hd2⟩ := Option.isSome_iff_exists.mp (hall c2 (by simp))
    obtain ⟨d3, hd3⟩ := Option.isSome_iff_exists.mp (hall c3 (by simp))
    obtain ⟨d4, hd4⟩ := Option.isSome_iff_exists.mp (hall c4 (by simp))
    obtain ⟨d5, hd5⟩ := Option.isSome_iff_exists.mp (hall c5 (by simp))
    refine ⟨_, (hex_six_eval hd0 hd1 hd2 hd3 hd4 hd5).1, ?_⟩
    obtain ⟨b0, b1⟩ := pair_channel_bounds (digitVal16_facts hd0).1 (digitVal16_facts hd1).1
    obtain ⟨b2, b3⟩ := pair_channel_bounds (digitVal16_facts hd2).1 (digitVal16_facts hd3).1
    obtain ⟨b4, b5⟩ := pair_channel_bounds (digitVal16_facts hd4).1 (digitVal16_facts hd5).1
    exact ⟨b0, b1, b2, b3, b4, b5⟩

/-- A list of valid hex strings parses wholesale, preserving length, with
every colour in the unit cube. -/
theorem valid_list_parse {l : List String} (h : ∀ s ∈ l, ValidHex s = true) :
    ∃ rgbs, l.mapM hex_colour_to_decimal_rgb = Except.ok rgbs ∧
      rgbs.length = l.length ∧ ∀ q ∈ rgbs, InUnit q := by
  induction l with
  | nil => exact ⟨[], rfl, rfl, by simp⟩
  | cons x xs ih =>
    obtain ⟨q, hq, hu⟩ := valid_hex_parse (h x (List.mem_cons_self x xs))
    obtain ⟨rgbs, hr, hlen, hall⟩ := ih (fun s hs => h s (List.mem_cons_of_mem x hs))
    refine ⟨q :: rgbs, ?_, by simp [hlen], ?_⟩
    · rw [List.mapM_cons, hq, exceptBindOk, hr]
      rfl
    · intro p hp
      rcases List.mem_cons.mp hp with rfl | hp'
      · exact hu
      · exact hall p hp'

/-- The distance from any unit-cube colour to the Blue palette entry is at
most `2.87451 < 3`: its green channel `0.874510` is at distance at most
`0.874510` from any green value in `[0, 1]`. -/
theorem closeness_blue_le {q : ℚ × ℚ × ℚ} (hq : InUnit q) :
    get_closeness q (entryRGB (-2, "Blue", 0, 874510, 1000000)) ≤ 287451 / 100000 := by
  obtain ⟨h1, h2, h3, h4, h5, h6⟩ := hq
  simp only [get_closeness, entryRGB, chanQ]
  have a1 : |q.1 - (0 : ℚ) / 1000000| ≤ 1 := by
    rw [abs_le]
    constructor <;> [linarith; linarith]
  have a2 : |q.2.1 - (874510 : ℚ) / 1000000| ≤ 874510 / 1000000 := by
    rw [abs_le]
    constructor <;> [linarith; linarith]
  have a3 : |q.2.2 - (1000000 : ℚ) / 1000000| ≤ 1 := by
    rw [abs_le]
    constructor <;> [linarith; linarith]
  push_cast
  linarith

/-- For a nonempty list of unit-cube colours, the cumulative closeness of the
Blue entry is strictly below the initial bound `3 * length`. -/
theorem cum_blue_lt {rgbs : List (ℚ × ℚ × ℚ)} (h : ∀ q ∈ rgbs, InUnit q) (hne : rgbs ≠ []) :
    cumulativeCloseness rgbs (-2, "Blue", 0, 874510, 1000000) < 3 * (rgbs.length : ℚ) := by
  have hsum : ∀ (l : List (ℚ × ℚ × ℚ)), (∀ q ∈ l, InUnit q) →
      cumulativeCloseness l (-2, "Blue", 0, 874510, 1000000) ≤
        287451 / 100000 * (l.length : ℚ) := by
    intro l hl
    induction l with
    | nil => simp [cumulativeCloseness]
    | cons x xs ih =>
      have hx := closeness_blue_le (hl x (List.mem_cons_self x xs))
      have hxs := ih (fun q hqm => hl q (List.mem_cons_of_mem x hqm))
      simp only [cumulativeCloseness] at hxs ⊢
      simp only [List.map_cons, List.sum_cons]
      have hcast : (((x :: xs).length : ℚ)) = (xs.length : ℚ) + 1 := by
        push_cast [List.length_cons]
        ring
      rw [hcast]
      linarith
  have h1 : (1 : ℚ) ≤ (rgbs.length : ℚ) := by
    have : 1 ≤ rgbs.length := List.length_pos.mpr hne
    exact_mod_cast this
  have := hsum rgbs h
  linarith

/-- Claim C4, counterexample: the empty list is a list of valid hex colours, but
there the initial bound is `3 * 0 = 0`, no palette entry's cumulative
closeness (all `0`) is strictly below it, no update ever happens, and the
untouched initial default `-2` is returned. -/
theorem cumulative_empty_never_updates :
    get_cumulative_closest_to_multiple_colours [] = .ok (-2) ∧
    ¬∃ e ∈ ACCENT_DEFINITIONS,
        cumulativeCloseness [] e < 3 * ((([] : List String)).length : ℚ) :=
  ⟨cum_empty_eval, by simp [cumulativeCloseness]⟩

/-- Claim C4, amended: for every NONEMPTY list of valid hex colours the initial
bound `3 * length` guarantees an update: some palette entry (Blue, whose
distance to any unit-cube colour is at most `2.87451`) has cumulative
closeness strictly below the bound, and the returned key is the key of a
scanned entry whose cumulative closeness is below the bound and minimal among
all palette entries — not the untouched initial default. -/
theorem cumulative_nonempty_updates (hexs : List String) (hne : hexs ≠ [])
    (hv : ∀ s ∈ hexs, ValidHex s = true) :
    ∃ rgbs k,
      hexs.mapM hex_colour_to_decimal_rgb = Except.ok rgbs ∧
      get_cumulative_closest_to_multiple_colours hexs = Except.ok k ∧
      (∃ e ∈ ACCENT_DEFINITIONS, cumulativeCloseness rgbs e < 3 * (hexs.length : ℚ)) ∧
      ∃ e ∈ ACCENT_DEFINITIONS, e.1 = k ∧
        cumulativeCloseness rgbs e < 3 * (hexs.length : ℚ) ∧
        ∀ e' ∈ ACCENT_DEFINITIONS,
          cumulativeCloseness rgbs e ≤ cumulativeCloseness rgbs e' := by
  obtain ⟨rgbs, hmap, hlen, hunit⟩ := valid_list_parse hv
  have hrne : rgbs ≠ [] := by
    intro h0
    rw [h0] at hlen
    exact hne (List.length_eq_zero.mp hlen.symm)
  have hblue_mem : ((-2 : Int), "Blue", (0 : Nat), (874510 : Nat), (1000000 : Nat)) ∈
      ACCENT_DEFINITIONS := by
    simp [ACCENT_DEFINITIONS]
  have hblue := cum_blue_lt hunit hrne
  rw [hlen] at hblue
  have hex_update : ∃ e ∈ ACCENT_DEFINITIONS,
      cumulativeCloseness rgbs e < 3 * (rgbs.length : ℚ) := by
    rw [hlen]
    exact ⟨_, hblue_mem, hblue⟩
  obtain ⟨a, hamem, hafold, haless, hamin⟩ :=
    foldl_sel_spec (cumulativeCloseness rgbs) (fun e => e.1) ACCENT_DEFINITIONS
      (3 * (rgbs.length : ℚ)) (-2) hex_update
  refine ⟨rgbs, a.1, hmap, ?_, ?_, a, hamem, rfl, ?_, hamin⟩
  · unfold get_cumulative_closest_to_multiple_colours
    rw [hmap, exceptBindOk, hafold]
    rfl
  · rw [← hlen]
    exact hex_update
  · rw [← hlen]
    exact haless

/-- Witness for C4's amended theorem at `["00ff00"]`. -/
theorem cumulative_nonempty_updates_witness :
    ∃ rgbs k,
      (["00ff00"] : List String).mapM hex_colour_to_decimal_rgb = Except.ok rgbs ∧
      get_cumulative_closest_to_multiple_colours ["00ff00"] = Except.ok k ∧
      (∃ e ∈ ACCENT_DEFINITIONS,
        cumulativeCloseness rgbs e < 3 * ((["00ff00"] : List String).length : ℚ)) ∧
      ∃ e ∈ ACCENT_DEFINITIONS, e.1 = k ∧
        cumulativeCloseness rgbs e < 3 * ((["00ff00"] : List String).length : ℚ) ∧
        ∀ e' ∈ ACCENT_DEFINITIONS,
          cumulativeCloseness rgbs e ≤ cumulativeCloseness rgbs e' :=
  cumulative_nonempty_updates ["00ff00"] (by decide) (by decide)
